import Mathlib

/-!
The conf-tool command: a query/mutation front end over a key-file library.

Shallow embedding of `src/conf-tool.c` (`app_print_strv`, `app_handle_key`,
`app_handle_keyfile`, `app_run`) together with a reference model of the
key-file document used by the library the tool is linked against.

Conventions of the embedding

* A C string that may be `NULL` is an `Option String`; `gboolean` is `Bool`.
* The global `quiet` is an explicit argument.
* `stdout` is the `out` field of an outcome, `stderr` the `err` field.
* The key-file library (`g_key_file_*`) and the file primitives
  (`g_file_test`, `g_file_set_contents`, `read`) are not part of the
  repository.  The tool's functions take them as a record of operations, so
  everything proved for an arbitrary record holds for whatever the library
  really does.
-/

namespace ConfTool

/-! ## Return values -/

/-- The enumeration `RET_VAL` of the tool (source lines 50-59). -/
inductive RET_VAL where
  | RET_FILE_UPDATED
  | RET_OK
  | RET_CMDLINE
  | RET_FILE_NOT_FOUND
  | RET_FILE_LOAD_ERROR
  | RET_FILE_UPDATE_ERROR
  | RET_SECTION_NOT_FOUND
  | RET_KEY_NOT_FOUND
  deriving DecidableEq, Repr

open RET_VAL

/-- Integer value of each enumerator: `RET_FILE_UPDATED = -1`, the others
count up from `RET_OK = 0`.  This is the number `main` returns. -/
def RET_VAL.toInt : RET_VAL → Int
  | RET_FILE_UPDATED => -1
  | RET_OK => 0
  | RET_CMDLINE => 1
  | RET_FILE_NOT_FOUND => 2
  | RET_FILE_LOAD_ERROR => 3
  | RET_FILE_UPDATE_ERROR => 4
  | RET_SECTION_NOT_FOUND => 5
  | RET_KEY_NOT_FOUND => 6

/-- The two values of `GKeyFileFlags` that `app_run` passes to the loader. -/
inductive GKeyFileFlags where
  | G_KEY_FILE_NONE
  | G_KEY_FILE_KEEP_COMMENTS
  deriving DecidableEq, Repr

/-! ## The external library, as a record of operations -/

/-- Operations of the key-file library on a loaded key file `KF`.  A call that
reports failure through its `GError**` argument is an `Except.error` carrying
that error; queries do not change the key file. -/
structure KeyFileApi (KF E : Type) where
  /-- The call `g_key_file_get_groups(keyfile, NULL)`: the NULL-terminated array. -/
  get_groups : KF → List String
  /-- The call `g_key_file_get_keys(keyfile, section, NULL, &error)`. -/
  get_keys : KF → String → Except E (List String)
  /-- The call `g_key_file_get_string(keyfile, section, key, &error)`. -/
  get_string : KF → String → String → Except E String
  /-- The call `g_key_file_set_string(keyfile, section, key, value)`. -/
  set_string : KF → String → String → String → KF
  /-- The call `g_key_file_remove_key(keyfile, section, key, &error)`. -/
  remove_key : KF → String → String → Except E KF
  /-- The call `g_key_file_remove_group(keyfile, section, &error)`. -/
  remove_group : KF → String → Except E KF

/-- What `app_run` needs from its surroundings.  `D` is the type of byte
buffers (file contents, the text produced by `g_key_file_to_data`). -/
structure Host (KF E D : Type) where
  /-- Everything the `read` loop collects from standard input. -/
  stdin : D
  /-- The call `g_key_file_load_from_data(keyfile, data, len, flags, &error)`. -/
  load_from_data : D → GKeyFileFlags → Except E KF
  /-- The call `g_file_test(file, G_FILE_TEST_EXISTS)`. -/
  file_test_exists : String → Bool
  /-- The call `g_key_file_load_from_file(keyfile, file, flags, &error)`. -/
  load_from_file : String → GKeyFileFlags → Except E KF
  /-- The call `g_key_file_to_data(keyfile, &size, NULL)`. -/
  to_data : KF → D
  /-- The call `g_file_set_contents(file, data, size, &error)`. -/
  file_set_contents : String → D → Except E Unit

/-! ## Output -/

/-- One message on `stderr`: a literal format string of the tool, the
`No such file` message with its argument, or the message of a library error
followed by a newline. -/
inductive Diag (E : Type) where
  | text (msg : String)
  | no_such_file (file : String)
  | gerror (error : E)
  deriving DecidableEq, Repr

/-- Result of `app_handle_key` / `app_handle_keyfile`: the returned code, the
key file after the call, and what was printed. -/
structure Outcome (KF E : Type) where
  ret : RET_VAL
  keyfile : KF
  out : String
  err : List (Diag E)
  deriving DecidableEq

/-- Result of `app_run`: the returned code, what the handlers printed on
`stdout`, the buffer dumped to `stdout` after it (stdin mode), the
`g_file_set_contents` call that was made (file mode), and `stderr`. -/
structure RunOutcome (E D : Type) where
  ret : RET_VAL
  out : String
  dump : Option D
  save : Option (String × D)
  err : List (Diag E)
  deriving DecidableEq

/-- The function `app_print_error`: prints unless `quiet` is set. -/
def app_print_error {E : Type} (quiet : Bool) (d : Diag E) : List (Diag E) :=
  if !quiet then [d] else []

/-- The function `app_error`, called with the error a failed library call left. -/
def app_error {E : Type} (quiet : Bool) (error : E) : List (Diag E) :=
  app_print_error quiet (Diag.gerror error)

/-- The function `app_print_strv`: walks the array from index 0 and prints
each string followed by a newline. -/
def app_print_strv : List String → String
  | [] => ""
  | s :: strv => s ++ "\n" ++ app_print_strv strv

/-! ## The handlers -/

/-- The function `app_handle_key` (source lines 107-143). -/
def app_handle_key {KF E : Type} (L : KeyFileApi KF E) (quiet : Bool)
    (keyfile : KF) (section_ key : String) (value : Option String)
    (remove : Bool) : Outcome KF E :=
  if remove then
    match value with
    | some _ =>
      ⟨RET_CMDLINE, keyfile, "",
        app_print_error quiet
          (Diag.text "You can\x27t set and remove key at the same time\n")⟩
    | none =>
      match L.remove_key keyfile section_ key with
      | .ok keyfile1 => ⟨RET_FILE_UPDATED, keyfile1, "", []⟩
      | .error error => ⟨RET_KEY_NOT_FOUND, keyfile, "", app_error quiet error⟩
  else
    match value with
    | some v => ⟨RET_FILE_UPDATED, L.set_string keyfile section_ key v, "", []⟩
    | none =>
      match L.get_string keyfile section_ key with
      | .ok str => ⟨RET_OK, keyfile, str, []⟩
      | .error error => ⟨RET_KEY_NOT_FOUND, keyfile, "", app_error quiet error⟩

/-- The function `app_handle_keyfile` (source lines 145-197). -/
def app_handle_keyfile {KF E : Type} (L : KeyFileApi KF E) (quiet : Bool)
    (keyfile : KF) (section_ key value : Option String) (remove : Bool) :
    Outcome KF E :=
  match section_ with
  | some s =>
    match key with
    | some k => app_handle_key L quiet keyfile s k value remove
    | none =>
      if remove then
        match L.remove_group keyfile s with
        | .ok keyfile1 => ⟨RET_FILE_UPDATED, keyfile1, "", []⟩
        | .error error =>
          ⟨RET_SECTION_NOT_FOUND, keyfile, "", app_error quiet error⟩
      else
        match L.get_keys keyfile s with
        | .ok strv => ⟨RET_OK, keyfile, app_print_strv strv, []⟩
        | .error error =>
          ⟨RET_SECTION_NOT_FOUND, keyfile, "", app_error quiet error⟩
  | none =>
    match key with
    | some k =>
      match L.get_groups keyfile with
      | s :: _ => app_handle_key L quiet keyfile s k value remove
      | [] =>
        ⟨RET_SECTION_NOT_FOUND, keyfile, "",
          app_print_error quiet (Diag.text "Config file has no sections\n")⟩
    | none =>
      if remove then
        ⟨RET_CMDLINE, keyfile, "",
          app_print_error quiet
            (Diag.text "You have to specify key or section to remove\n")⟩
      else
        ⟨RET_OK, keyfile, app_print_strv (L.get_groups keyfile), []⟩

/-- The macro `STANDARD_INPUT`. -/
def STANDARD_INPUT : String := "-"

/-- The flags `app_run` computes: comments are kept when the file is going
to be modified. -/
def app_run_flags (value : Option String) (remove : Bool) : GKeyFileFlags :=
  if value.isSome || remove then GKeyFileFlags.G_KEY_FILE_KEEP_COMMENTS
  else GKeyFileFlags.G_KEY_FILE_NONE

/-- The function `app_run` (source lines 199-272). -/
def app_run {KF E D : Type} (L : KeyFileApi KF E) (H : Host KF E D)
    (quiet : Bool) (file : String) (section_ key value : Option String)
    (remove : Bool) : RunOutcome E D :=
  let flags := app_run_flags value remove
  if file = STANDARD_INPUT then
    match H.load_from_data H.stdin flags with
    | .ok keyfile =>
      let r := app_handle_keyfile L quiet keyfile section_ key value remove
      if r.ret = RET_FILE_UPDATED then
        ⟨RET_OK, r.out, some (H.to_data r.keyfile), none, r.err⟩
      else
        ⟨r.ret, r.out, none, none, r.err⟩
    | .error error =>
      ⟨RET_FILE_LOAD_ERROR, "", none, none, app_error quiet error⟩
  else
    if H.file_test_exists file then
      match H.load_from_file file flags with
      | .ok keyfile =>
        let r := app_handle_keyfile L quiet keyfile section_ key value remove
        if r.ret = RET_FILE_UPDATED then
          let data := H.to_data r.keyfile
          match H.file_set_contents file data with
          | .ok _ => ⟨RET_OK, r.out, none, some (file, data), r.err⟩
          | .error error =>
            ⟨RET_FILE_UPDATE_ERROR, r.out, none, some (file, data),
              r.err ++ app_error quiet error⟩
        else
          ⟨r.ret, r.out, none, none, r.err⟩
      | .error error =>
        ⟨RET_FILE_LOAD_ERROR, "", none, none, app_error quiet error⟩
    else
      ⟨RET_FILE_NOT_FOUND, "", none, none,
        app_print_error quiet (Diag.no_such_file file)⟩

/-! ## Reference model of the key file

The library's data structure is described by the specification as an ordered
sequence of sections, each an ordered sequence of entries.  The definitions
below follow that description; they instantiate `KeyFileApi` and `Host`. -/

/-- Modelled from the spec: the key-file library (`GKeyFile`) is not under
`src/`.  An Entry has a key, a value (any string, the empty one included), an
optional leading comment block and an optional trailing inline comment. -/
structure Entry where
  key : String
  value : String
  leading : Option String
  trailing : Option String
  deriving DecidableEq, Repr

/-- Modelled from the spec: the key-file library (`GKeyFile`) is not under
`src/`.  A Section has a name, its entries in order and an optional leading
comment block. -/
structure Section where
  name : String
  entries : List Entry
  leading : Option String
  deriving DecidableEq, Repr

/-- Modelled from the spec: the key-file library (`GKeyFile`) is not under
`src/`.  A Document is the ordered sequence of its sections, with the comment
block that precedes the first section. -/
structure Document where
  sections : List Section
  leading : Option String
  deriving DecidableEq, Repr

/-- Modelled from the spec: the error kinds of the taxonomy (parse error, no
such section, no such key, I/O error); the `GError` of the library is not under
`src/`. -/
inductive KeyFileError where
  | parse
  | group_not_found
  | key_not_found
  | io
  deriving DecidableEq, Repr

/-- Modelled from the spec: entry lookup by key inside a section (library
code, not under `src/`). -/
def Entry.lookup (key : String) : List Entry → Option Entry
  | [] => none
  | e :: es => if e.key = key then some e else Entry.lookup key es

/-- Modelled from the spec: create/overwrite an entry (library code, not under
`src/`).  An existing key keeps its position and comments; a new key is
appended at the end of the section. -/
def Entry.set (key value : String) : List Entry → List Entry
  | [] => [⟨key, value, none, none⟩]
  | e :: es =>
    if e.key = key then ⟨e.key, value, e.leading, e.trailing⟩ :: es
    else e :: Entry.set key value es

/-- Modelled from the spec: delete an entry, or report that the key is not
there (library code, not under `src/`). -/
def Entry.remove (key : String) : List Entry → Option (List Entry)
  | [] => none
  | e :: es =>
    if e.key = key then some es
    else (Entry.remove key es).map (fun es1 => e :: es1)

/-- Modelled from the spec: section lookup by name (library code, not under
`src/`). -/
def Section.lookup (name : String) : List Section → Option Section
  | [] => none
  | s :: ss => if s.name = name then some s else Section.lookup name ss

/-- Modelled from the spec: `set` inside the named section; a section that
does not exist yet is appended at the end of the document (library code, not
under `src/`). -/
def Section.set (name key value : String) : List Section → List Section
  | [] => [⟨name, [⟨key, value, none, none⟩], none⟩]
  | s :: ss =>
    if s.name = name then ⟨s.name, Entry.set key value s.entries, s.leading⟩ :: ss
    else s :: Section.set name key value ss

/-- Modelled from the spec: remove a key of the named section (library code,
not under `src/`). -/
def Section.remove_key (name key : String) :
    List Section → Except KeyFileError (List Section)
  | [] => .error KeyFileError.group_not_found
  | s :: ss =>
    if s.name = name then
      match Entry.remove key s.entries with
      | some es => .ok (⟨s.name, es, s.leading⟩ :: ss)
      | none => .error KeyFileError.key_not_found
    else
      match Section.remove_key name key ss with
      | .ok ss1 => .ok (s :: ss1)
      | .error e => .error e

/-- Modelled from the spec: delete the named section (library code, not under
`src/`). -/
def Section.remove (name : String) :
    List Section → Except KeyFileError (List Section)
  | [] => .error KeyFileError.group_not_found
  | s :: ss =>
    if s.name = name then .ok ss
    else
      match Section.remove name ss with
      | .ok ss1 => .ok (s :: ss1)
      | .error e => .error e

/-- Modelled from the spec: list sections, ordered list of section names
(`g_key_file_get_groups`, not under `src/`). -/
def Document.get_groups (d : Document) : List String :=
  d.sections.map (fun s => s.name)

/-- Modelled from the spec: list keys, the ordered list of key names in the
Section, or section not found (`g_key_file_get_keys`, not under `src/`). -/
def Document.get_keys (d : Document) (name : String) :
    Except KeyFileError (List String) :=
  match Section.lookup name d.sections with
  | some s => .ok (s.entries.map (fun e => e.key))
  | none => .error KeyFileError.group_not_found

/-- Modelled from the spec: get, the entry's value or not found
(`g_key_file_get_string`, not under `src/`). -/
def Document.get_string (d : Document) (name key : String) :
    Except KeyFileError String :=
  match Section.lookup name d.sections with
  | some s =>
    match Entry.lookup key s.entries with
    | some e => .ok e.value
    | none => .error KeyFileError.key_not_found
  | none => .error KeyFileError.group_not_found

/-- Modelled from the spec: set, create/overwrite the entry
(`g_key_file_set_string`, not under `src/`). -/
def Document.set_string (d : Document) (name key value : String) : Document :=
  ⟨Section.set name key value d.sections, d.leading⟩

/-- Modelled from the spec: remove key, delete the entry or key not found
(`g_key_file_remove_key`, not under `src/`). -/
def Document.remove_key (d : Document) (name key : String) :
    Except KeyFileError Document :=
  match Section.remove_key name key d.sections with
  | .ok ss => .ok ⟨ss, d.leading⟩
  | .error e => .error e

/-- Modelled from the spec: remove section, delete the whole section or report
that it is not found (`g_key_file_remove_group`, not under `src/`). -/
def Document.remove_group (d : Document) (name : String) :
    Except KeyFileError Document :=
  match Section.remove name d.sections with
  | .ok ss => .ok ⟨ss, d.leading⟩
  | .error e => .error e

/-- Modelled from the spec: the query/mutation primitives of the key-file
library (not under `src/`), on the reference document. -/
def specKeyFile : KeyFileApi Document KeyFileError where
  get_groups := Document.get_groups
  get_keys := Document.get_keys
  get_string := Document.get_string
  set_string := Document.set_string
  remove_key := Document.remove_key
  remove_group := Document.remove_group

/-- The document has an entry `key` in a section called `name`. -/
def Document.hasEntry (d : Document) (name key : String) : Prop :=
  ∃ s ∈ d.sections, s.name = name ∧ ∃ e ∈ s.entries, e.key = key

/-- Modelled from the spec: a byte buffer as the parser sees it (the parser
is not under `src/`): text it rejects, or text of a document. -/
inductive Content where
  | unparsable
  | document (d : Document)
  deriving DecidableEq, Repr

/-- Modelled from the spec: dropping the comment metadata, which is what
loading without `G_KEY_FILE_KEEP_COMMENTS` does (loader not under `src/`). -/
def Document.drop_comments (d : Document) : Document :=
  ⟨d.sections.map (fun s =>
      ⟨s.name, s.entries.map (fun e => ⟨e.key, e.value, none, none⟩), none⟩),
    none⟩

/-- Modelled from the spec: `parse(bytes) → Document | ParseError` (parser not
under `src/`), on buffers whose parse result is known. -/
def Content.load (c : Content) (flags : GKeyFileFlags) :
    Except KeyFileError Document :=
  match c with
  | Content.unparsable => .error KeyFileError.parse
  | Content.document d =>
    match flags with
    | GKeyFileFlags.G_KEY_FILE_KEEP_COMMENTS => .ok d
    | GKeyFileFlags.G_KEY_FILE_NONE => .ok d.drop_comments

/-- Modelled from the spec: the state of the I/O layer (an external
collaborator, not under `src/`): standard input, the existing paths with
their contents, and the paths that cannot be written. -/
structure FileTable where
  stdin : Content
  files : List (String × Content)
  readonly : List String

/-- Modelled from the spec: the I/O layer (an external collaborator, not under
`src/`) over a `FileTable`. -/
def tableHost (t : FileTable) : Host Document KeyFileError Content where
  stdin := t.stdin
  load_from_data := Content.load
  file_test_exists := fun file => (t.files.lookup file).isSome
  load_from_file := fun file flags =>
    match t.files.lookup file with
    | some c => c.load flags
    | none => .error KeyFileError.io
  to_data := Content.document
  file_set_contents := fun file _ =>
    if file ∈ t.readonly then .error KeyFileError.io else .ok ()

/-- The document of the text `[a]`, `x=1`, `[b]`, `y=2`. -/
def docAB : Document :=
  ⟨[⟨"a", [⟨"x", "1", none, none⟩], none⟩, ⟨"b", [⟨"y", "2", none, none⟩], none⟩],
    none⟩

/-- The document without sections. -/
def docEmpty : Document := ⟨[], none⟩

/-! ## The three ways `app_run` can get past its loading stage -/

/-- The path is not standard input and `g_file_test` does not find it. -/
def Host.missing {KF E D : Type} (H : Host KF E D) (file : String) : Prop :=
  file ≠ STANDARD_INPUT ∧ H.file_test_exists file = false

/-- The loader rejects standard input, or the existing file. -/
def Host.load_fails {KF E D : Type} (H : Host KF E D) (file : String)
    (flags : GKeyFileFlags) : Prop :=
  (file = STANDARD_INPUT ∧ ∃ e, H.load_from_data H.stdin flags = .error e) ∨
  (file ≠ STANDARD_INPUT ∧ H.file_test_exists file = true ∧
    ∃ e, H.load_from_file file flags = .error e)

/-- The loader turns standard input, or the existing file, into `kf`. -/
def Host.loads {KF E D : Type} (H : Host KF E D) (file : String)
    (flags : GKeyFileFlags) (kf : KF) : Prop :=
  (file = STANDARD_INPUT ∧ H.load_from_data H.stdin flags = .ok kf) ∨
  (file ≠ STANDARD_INPUT ∧ H.file_test_exists file = true ∧
    H.load_from_file file flags = .ok kf)

/-- A file table with one loadable file `a.conf` holding `docAB`, one
unparsable file `bad.conf`, and the text of `docAB` on standard input. -/
def tableAB : FileTable :=
  ⟨Content.document docAB,
    [("a.conf", Content.document docAB), ("bad.conf", Content.unparsable),
      ("ro.conf", Content.document docAB)],
    ["ro.conf"]⟩


/-! ## Helper lemmas on the handlers -/

section handlers

variable {KF E D : Type}

theorem app_handle_key_set_and_remove (L : KeyFileApi KF E) (quiet : Bool)
    (kf : KF) (s k v : String) :
    app_handle_key L quiet kf s k (some v) true =
      ⟨RET_CMDLINE, kf, "",
        app_print_error quiet
          (Diag.text "You can\x27t set and remove key at the same time\n")⟩ := by
  simp [app_handle_key]

theorem app_handle_keyfile_first (L : KeyFileApi KF E) (quiet : Bool)
    (kf : KF) (s : String) (rest : List String) (k : String)
    (value : Option String) (remove : Bool)
    (h : L.get_groups kf = s :: rest) :
    app_handle_keyfile L quiet kf none (some k) value remove =
      app_handle_key L quiet kf s k value remove := by
  simp [app_handle_keyfile, h]

theorem app_handle_keyfile_no_sections (L : KeyFileApi KF E) (quiet : Bool)
    (kf : KF) (k : String) (value : Option String) (remove : Bool)
    (h : L.get_groups kf = []) :
    app_handle_keyfile L quiet kf none (some k) value remove =
      ⟨RET_SECTION_NOT_FOUND, kf, "",
        app_print_error quiet (Diag.text "Config file has no sections\n")⟩ := by
  simp [app_handle_keyfile, h]

theorem app_handle_keyfile_conflict (L : KeyFileApi KF E) (quiet : Bool)
    (kf : KF) (section_ : Option String) (k v : String)
    (h : section_.isSome ∨ L.get_groups kf ≠ []) :
    app_handle_keyfile L quiet kf section_ (some k) (some v) true =
      ⟨RET_CMDLINE, kf, "",
        app_print_error quiet
          (Diag.text "You can\x27t set and remove key at the same time\n")⟩ := by
  cases section_ with
  | some s => simp [app_handle_keyfile, app_handle_key_set_and_remove]
  | none =>
    cases hg : L.get_groups kf with
    | nil => simp [hg] at h
    | cons s rest =>
      rw [app_handle_keyfile_first L quiet kf s rest k _ _ hg,
        app_handle_key_set_and_remove]

end handlers

/-! ## Helper lemmas on `app_run` -/

section run

variable {KF E D : Type}

theorem Host.cases (H : Host KF E D) (file : String) (flags : GKeyFileFlags) :
    H.missing file ∨ H.load_fails file flags ∨ ∃ kf, H.loads file flags kf := by
  unfold Host.missing Host.load_fails Host.loads
  by_cases hf : file = STANDARD_INPUT
  · cases hl : H.load_from_data H.stdin flags with
    | error e => exact Or.inr (Or.inl (Or.inl ⟨hf, e, rfl⟩))
    | ok kf => exact Or.inr (Or.inr ⟨kf, Or.inl ⟨hf, rfl⟩⟩)
  · cases he : H.file_test_exists file with
    | false => exact Or.inl ⟨hf, rfl⟩
    | true =>
      cases hl : H.load_from_file file flags with
      | error e => exact Or.inr (Or.inl (Or.inr ⟨hf, rfl, e, rfl⟩))
      | ok kf => exact Or.inr (Or.inr ⟨kf, Or.inr ⟨hf, rfl, rfl⟩⟩)

theorem app_run_missing (L : KeyFileApi KF E) (H : Host KF E D) (quiet : Bool)
    (file : String) (section_ key value : Option String) (remove : Bool)
    (h : H.missing file) :
    app_run L H quiet file section_ key value remove =
      ⟨RET_FILE_NOT_FOUND, "", none, none,
        app_print_error quiet (Diag.no_such_file file)⟩ := by
  obtain ⟨hf, he⟩ := h
  simp [app_run, hf, he]

theorem app_run_load_fails (L : KeyFileApi KF E) (H : Host KF E D)
    (quiet : Bool) (file : String) (section_ key value : Option String)
    (remove : Bool) (h : H.load_fails file (app_run_flags value remove)) :
    ∃ e, app_run L H quiet file section_ key value remove =
      ⟨RET_FILE_LOAD_ERROR, "", none, none, app_error quiet e⟩ := by
  rcases h with ⟨hf, e, hl⟩ | ⟨hf, he, e, hl⟩
  · exact ⟨e, by simp [app_run, hf, hl]⟩
  · exact ⟨e, by simp [app_run, hf, he, hl]⟩

theorem app_run_loads_not_updated (L : KeyFileApi KF E) (H : Host KF E D)
    (quiet : Bool) (file : String) (section_ key value : Option String)
    (remove : Bool) (kf : KF)
    (h : H.loads file (app_run_flags value remove) kf)
    (hr : (app_handle_keyfile L quiet kf section_ key value remove).ret ≠
      RET_FILE_UPDATED) :
    app_run L H quiet file section_ key value remove =
      ⟨(app_handle_keyfile L quiet kf section_ key value remove).ret,
        (app_handle_keyfile L quiet kf section_ key value remove).out,
        none, none,
        (app_handle_keyfile L quiet kf section_ key value remove).err⟩ := by
  rcases h with ⟨hf, hl⟩ | ⟨hf, he, hl⟩
  · simp [app_run, hf, hl, hr]
  · simp [app_run, hf, he, hl, hr]

theorem app_run_loads_updated_stdin (L : KeyFileApi KF E) (H : Host KF E D)
    (quiet : Bool) (file : String) (section_ key value : Option String)
    (remove : Bool) (kf : KF) (hf : file = STANDARD_INPUT)
    (h : H.loads file (app_run_flags value remove) kf)
    (hr : (app_handle_keyfile L quiet kf section_ key value remove).ret =
      RET_FILE_UPDATED) :
    app_run L H quiet file section_ key value remove =
      ⟨RET_OK, (app_handle_keyfile L quiet kf section_ key value remove).out,
        some (H.to_data
          (app_handle_keyfile L quiet kf section_ key value remove).keyfile),
        none,
        (app_handle_keyfile L quiet kf section_ key value remove).err⟩ := by
  rcases h with ⟨_, hl⟩ | ⟨hf1, _, _⟩
  · simp [app_run, hf, hl, hr]
  · exact absurd hf hf1

theorem app_run_loads_updated_file (L : KeyFileApi KF E) (H : Host KF E D)
    (quiet : Bool) (file : String) (section_ key value : Option String)
    (remove : Bool) (kf : KF) (hf : file ≠ STANDARD_INPUT)
    (h : H.loads file (app_run_flags value remove) kf)
    (hr : (app_handle_keyfile L quiet kf section_ key value remove).ret =
      RET_FILE_UPDATED) :
    (app_run L H quiet file section_ key value remove).ret =
      (match H.file_set_contents file (H.to_data
          (app_handle_keyfile L quiet kf section_ key value remove).keyfile) with
        | .ok _ => RET_OK
        | .error _ => RET_FILE_UPDATE_ERROR) ∧
    (app_run L H quiet file section_ key value remove).dump = none ∧
    (app_run L H quiet file section_ key value remove).save =
      some (file, H.to_data
        (app_handle_keyfile L quiet kf section_ key value remove).keyfile) := by
  rcases h with ⟨hf1, _⟩ | ⟨_, he, hl⟩
  · exact absurd hf1 hf
  · simp only [app_run, hf, he, hl, hr, if_true, if_false]
    cases H.file_set_contents file (H.to_data
      (app_handle_keyfile L quiet kf section_ key value remove).keyfile) <;> simp

end run

section stages

variable {KF E D : Type}

theorem Host.loads_unique (H : Host KF E D) (file : String)
    (flags : GKeyFileFlags) (kf kf1 : KF) (h : H.loads file flags kf)
    (h1 : H.loads file flags kf1) : kf1 = kf := by
  rcases h with ⟨hf, hl⟩ | ⟨hf, _, hl⟩ <;>
    rcases h1 with ⟨hf1, hl1⟩ | ⟨hf1, _, hl1⟩
  · rw [hl] at hl1
    exact (Except.ok.inj hl1).symm
  · exact absurd hf hf1
  · exact absurd hf1 hf
  · rw [hl] at hl1
    exact (Except.ok.inj hl1).symm

theorem Host.exists_loads_iff (H : Host KF E D) (file : String)
    (flags : GKeyFileFlags) (kf : KF) (h : H.loads file flags kf)
    (P : KF → Prop) : (∃ kf1, H.loads file flags kf1 ∧ P kf1) ↔ P kf := by
  constructor
  · rintro ⟨kf1, h1, hp⟩
    rw [← H.loads_unique file flags kf kf1 h h1]
    exact hp
  · intro hp
    exact ⟨kf, h, hp⟩

theorem Host.missing_not_load_fails (H : Host KF E D) (file : String)
    (flags : GKeyFileFlags) (h : H.missing file) :
    ¬ H.load_fails file flags := by
  rintro (⟨hf, _⟩ | ⟨_, he, _⟩)
  · exact h.1 hf
  · rw [h.2] at he
    cases he

theorem Host.missing_not_loads (H : Host KF E D) (file : String)
    (flags : GKeyFileFlags) (kf : KF) (h : H.missing file) :
    ¬ H.loads file flags kf := by
  rintro (⟨hf, _⟩ | ⟨_, he, _⟩)
  · exact h.1 hf
  · rw [h.2] at he
    cases he

theorem Host.load_fails_not_loads (H : Host KF E D) (file : String)
    (flags : GKeyFileFlags) (kf : KF) (h : H.load_fails file flags) :
    ¬ H.loads file flags kf := by
  rcases h with ⟨hf, e, hl⟩ | ⟨hf, _, e, hl⟩ <;>
    rintro (⟨hf1, hl1⟩ | ⟨hf1, _, hl1⟩)
  · rw [hl] at hl1
    cases hl1
  · exact hf1 hf
  · exact hf hf1
  · rw [hl] at hl1
    cases hl1

theorem app_run_ret_of_loads (L : KeyFileApi KF E) (H : Host KF E D)
    (quiet : Bool) (file : String) (section_ key value : Option String)
    (remove : Bool) (kf : KF)
    (h : H.loads file (app_run_flags value remove) kf) :
    (app_run L H quiet file section_ key value remove).ret =
      if (app_handle_keyfile L quiet kf section_ key value remove).ret =
          RET_FILE_UPDATED then
        if file = STANDARD_INPUT then RET_OK
        else
          match H.file_set_contents file (H.to_data
            (app_handle_keyfile L quiet kf section_ key value
              remove).keyfile) with
          | .ok _ => RET_OK
          | .error _ => RET_FILE_UPDATE_ERROR
      else (app_handle_keyfile L quiet kf section_ key value remove).ret := by
  by_cases hr : (app_handle_keyfile L quiet kf section_ key value remove).ret =
      RET_FILE_UPDATED
  · by_cases hf : file = STANDARD_INPUT
    · rw [app_run_loads_updated_stdin L H quiet file _ _ _ _ kf hf h hr]
      simp [hr, hf]
    · rw [(app_run_loads_updated_file L H quiet file _ _ _ _ kf hf h hr).1]
      simp [hr, hf]
  · rw [app_run_loads_not_updated L H quiet file _ _ _ _ kf h hr]
    simp [hr]

theorem app_handle_keyfile_cmdline (L : KeyFileApi KF E) (quiet : Bool)
    (kf : KF) (section_ key value : Option String) (remove : Bool)
    (h : (app_handle_keyfile L quiet kf section_ key value remove).ret =
      RET_CMDLINE) :
    remove = true ∧
      (value.isSome = true ∨ (section_ = none ∧ key = none)) := by
  have hkey : ∀ s k, (app_handle_key L quiet kf s k value remove).ret =
      RET_CMDLINE → remove = true ∧ value.isSome = true := by
    intro s k hk
    cases remove <;> cases value <;> simp only [app_handle_key] at hk
    · cases hg : L.get_string kf s k <;> simp [hg] at hk
    · simp at hk
    · cases hg : L.remove_key kf s k <;> simp [hg] at hk
    · exact ⟨rfl, rfl⟩
  cases section_ with
  | some s =>
    cases key with
    | some k => exact ⟨(hkey s k h).1, Or.inl (hkey s k h).2⟩
    | none =>
      cases remove with
      | true =>
        cases hg : L.remove_group kf s <;> simp [app_handle_keyfile, hg] at h
      | false =>
        cases hg : L.get_keys kf s <;> simp [app_handle_keyfile, hg] at h
  | none =>
    cases key with
    | some k =>
      cases hg : L.get_groups kf with
      | nil => simp [app_handle_keyfile_no_sections L quiet kf k _ _ hg] at h
      | cons s rest =>
        rw [app_handle_keyfile_first L quiet kf s rest k value remove hg] at h
        exact ⟨(hkey s k h).1, Or.inl (hkey s k h).2⟩
    | none =>
      cases remove with
      | true => exact ⟨rfl, Or.inr ⟨rfl, rfl⟩⟩
      | false => simp [app_handle_keyfile] at h

theorem app_handle_keyfile_ret_range (L : KeyFileApi KF E) (quiet : Bool)
    (kf : KF) (section_ key value : Option String) (remove : Bool) :
    (app_handle_keyfile L quiet kf section_ key value remove).ret ≠
        RET_FILE_NOT_FOUND ∧
      (app_handle_keyfile L quiet kf section_ key value remove).ret ≠
        RET_FILE_LOAD_ERROR ∧
      (app_handle_keyfile L quiet kf section_ key value remove).ret ≠
        RET_FILE_UPDATE_ERROR := by
  have hkey : ∀ s k, (app_handle_key L quiet kf s k value remove).ret ≠
        RET_FILE_NOT_FOUND ∧
      (app_handle_key L quiet kf s k value remove).ret ≠
        RET_FILE_LOAD_ERROR ∧
      (app_handle_key L quiet kf s k value remove).ret ≠
        RET_FILE_UPDATE_ERROR := by
    intro s k
    cases remove <;> cases value <;> simp only [app_handle_key]
    · cases L.get_string kf s k <;> simp
    · simp
    · cases L.remove_key kf s k <;> simp
    · simp
  cases section_ with
  | some s =>
    cases key with
    | some k => exact hkey s k
    | none =>
      cases remove with
      | true => cases hg : L.remove_group kf s <;> simp [app_handle_keyfile, hg]
      | false => cases hg : L.get_keys kf s <;> simp [app_handle_keyfile, hg]
  | none =>
    cases key with
    | some k =>
      cases hg : L.get_groups kf with
      | nil => simp [app_handle_keyfile_no_sections L quiet kf k _ _ hg]
      | cons s rest =>
        rw [app_handle_keyfile_first L quiet kf s rest k value remove hg]
        exact hkey s k
    | none => cases remove <;> simp [app_handle_keyfile]

end stages

/-! ## Helper lemmas on the reference key file -/

theorem Entry.remove_eq_none (k : String) (es : List Entry)
    (h : ∀ e ∈ es, e.key ≠ k) : Entry.remove k es = none := by
  induction es with
  | nil => rfl
  | cons e es ih =>
    have he : e.key ≠ k := h e (List.mem_cons_self e es)
    have ht : ∀ x ∈ es, x.key ≠ k := fun x hx => h x (List.mem_cons_of_mem e hx)
    simp [Entry.remove, he, ih ht]

theorem Section.remove_key_fails (name k : String) (ss : List Section)
    (h : ∀ s ∈ ss, s.name = name → ∀ e ∈ s.entries, e.key ≠ k) :
    ∃ err, Section.remove_key name k ss = .error err := by
  induction ss with
  | nil => exact ⟨KeyFileError.group_not_found, rfl⟩
  | cons s ss ih =>
    by_cases hn : s.name = name
    · have hr := Entry.remove_eq_none k s.entries
        (h s (List.mem_cons_self s ss) hn)
      exact ⟨KeyFileError.key_not_found, by simp [Section.remove_key, hn, hr]⟩
    · obtain ⟨err, he⟩ := ih (fun x hx => h x (List.mem_cons_of_mem s hx))
      exact ⟨err, by simp [Section.remove_key, hn, he]⟩

theorem Document.remove_key_error (d : Document) (name k : String)
    (h : ¬ d.hasEntry name k) :
    ∃ err, specKeyFile.remove_key d name k = .error err := by
  obtain ⟨err, he⟩ := Section.remove_key_fails name k d.sections
    (fun s hs hn e hm hk => h ⟨s, hs, hn, e, hm, hk⟩)
  exact ⟨err, by simp [specKeyFile, Document.remove_key, he]⟩

theorem Entry.lookup_after_set (k v : String) (es : List Entry) :
    (Entry.lookup k (Entry.set k v es)).map (fun e => e.value) = some v := by
  induction es with
  | nil => simp [Entry.set, Entry.lookup]
  | cons e es ih =>
    by_cases he : e.key = k
    · simp [Entry.set, Entry.lookup, he]
    · simp [Entry.set, Entry.lookup, he, ih]

theorem Section.lookup_set_value (name k v : String) (ss : List Section) :
    ∃ s, Section.lookup name (Section.set name k v ss) = some s ∧
      (Entry.lookup k s.entries).map (fun e => e.value) = some v := by
  induction ss with
  | nil =>
    exact ⟨⟨name, [⟨k, v, none, none⟩], none⟩,
      by simp [Section.set, Section.lookup], by simp [Entry.lookup]⟩
  | cons s ss ih =>
    by_cases hs : s.name = name
    · exact ⟨⟨s.name, Entry.set k v s.entries, s.leading⟩,
        by simp [Section.set, Section.lookup, hs], Entry.lookup_after_set k v _⟩
    · obtain ⟨t, ht, hv⟩ := ih
      exact ⟨t, by simp [Section.set, Section.lookup, hs, ht], hv⟩

theorem Document.get_string_set_string (d : Document) (name k v : String) :
    specKeyFile.get_string (specKeyFile.set_string d name k v) name k =
      .ok v := by
  obtain ⟨s, hs, hv⟩ := Section.lookup_set_value name k v d.sections
  simp only [specKeyFile, Document.get_string, Document.set_string, hs]
  cases hl : Entry.lookup k s.entries with
  | none => simp [hl] at hv
  | some e =>
    simp [hl] at hv
    simp [hv]

theorem app_print_strv_eq_join (strv : List String) :
    app_print_strv strv = String.join (strv.map (fun s => s ++ "\n")) := by
  induction strv with
  | nil => rfl
  | cons s strv ih =>
    apply String.ext
    simp [app_print_strv, ih, String.join_eq]

theorem Section.lookup_mem (ss : List Section) (s : Section)
    (hu : (ss.map (fun x => x.name)).Nodup) (hs : s ∈ ss) :
    Section.lookup s.name ss = some s := by
  induction ss with
  | nil => cases hs
  | cons t ss ih =>
    simp only [List.map_cons, List.nodup_cons] at hu
    rcases List.mem_cons.mp hs with rfl | hm
    · simp [Section.lookup]
    · have hne : t.name ≠ s.name := by
        intro heq
        exact hu.1 (heq ▸ List.mem_map_of_mem (fun x : Section => x.name) hm)
      simp [Section.lookup, hne, ih hu.2 hm]

theorem Section.lookup_eq_none (ss : List Section) (name : String)
    (h : ∀ s ∈ ss, s.name ≠ name) : Section.lookup name ss = none := by
  induction ss with
  | nil => rfl
  | cons t ss ih =>
    have ht : t.name ≠ name := h t (List.mem_cons_self t ss)
    simp [Section.lookup, ht, ih (fun x hx => h x (List.mem_cons_of_mem t hx))]

/-! ## C1: a value together with remove, on a loaded key file -/

/-- C1 (as stated, refuted): on the document without sections, with no section
named, key `k`, value `v` and remove requested, `app_handle_keyfile` returns
`RET_SECTION_NOT_FOUND`, not `RET_CMDLINE`; and on the two-section document,
with section `a`, no key, value `v` and remove requested, it returns
`RET_FILE_UPDATED` and the document has lost section `a`. -/
theorem app_handle_keyfile_set_and_remove_no_sections :
    (app_handle_keyfile specKeyFile false docEmpty none (some "k") (some "v")
        true).ret = RET_SECTION_NOT_FOUND ∧
    (app_handle_keyfile specKeyFile false docEmpty none (some "k") (some "v")
        true).ret ≠ RET_CMDLINE ∧
    (app_handle_keyfile specKeyFile false docAB (some "a") none (some "v")
        true).ret = RET_FILE_UPDATED ∧
    (app_handle_keyfile specKeyFile false docAB (some "a") none (some "v")
        true).keyfile = ⟨[⟨"b", [⟨"y", "2", none, none⟩], none⟩], none⟩ ∧
    (app_handle_keyfile specKeyFile false docAB (some "a") none (some "v")
        true).keyfile ≠ docAB := by
  refine ⟨?_, ?_, ?_, ?_, ?_⟩ <;> decide

/-- C1 (amended): for every key file, with both a value and remove requested,
`app_handle_keyfile` prints nothing on stdout and behaves as follows.  When a
key is given and either the section is given or the key file has at least one
section, and also when neither section nor key is given, it returns
`RET_CMDLINE` and leaves the key file unchanged.  With a key, no section and a
key file without sections it returns `RET_SECTION_NOT_FOUND` and leaves the
key file unchanged.  With a section and no key the value is ignored: the
outcome is that of the same call without the value, which is
`RET_FILE_UPDATED` with the key file `g_key_file_remove_group` produced when
that call succeeds, and `RET_SECTION_NOT_FOUND` with the key file unchanged
when it fails. -/
theorem app_handle_keyfile_set_and_remove {KF E : Type} (L : KeyFileApi KF E)
    (quiet : Bool) (kf : KF) (section_ key : Option String) (v : String) :
    (key.isSome → (section_.isSome ∨ L.get_groups kf ≠ []) →
      (app_handle_keyfile L quiet kf section_ key (some v) true).ret = RET_CMDLINE ∧
      (app_handle_keyfile L quiet kf section_ key (some v) true).keyfile = kf ∧
      (app_handle_keyfile L quiet kf section_ key (some v) true).out = "") ∧
    (key = none → section_ = none →
      (app_handle_keyfile L quiet kf section_ key (some v) true).ret = RET_CMDLINE ∧
      (app_handle_keyfile L quiet kf section_ key (some v) true).keyfile = kf ∧
      (app_handle_keyfile L quiet kf section_ key (some v) true).out = "") ∧
    (key.isSome → section_ = none → L.get_groups kf = [] →
      (app_handle_keyfile L quiet kf section_ key (some v) true).ret =
        RET_SECTION_NOT_FOUND ∧
      (app_handle_keyfile L quiet kf section_ key (some v) true).keyfile = kf ∧
      (app_handle_keyfile L quiet kf section_ key (some v) true).out = "") ∧
    (∀ s : String, section_ = some s → key = none →
      app_handle_keyfile L quiet kf section_ key (some v) true =
        app_handle_keyfile L quiet kf section_ key none true ∧
      (∀ kf1, L.remove_group kf s = .ok kf1 →
        app_handle_keyfile L quiet kf section_ key (some v) true =
          ⟨RET_FILE_UPDATED, kf1, "", []⟩) ∧
      (∀ e, L.remove_group kf s = .error e →
        app_handle_keyfile L quiet kf section_ key (some v) true =
          ⟨RET_SECTION_NOT_FOUND, kf, "", app_error quiet e⟩)) := by
  refine ⟨?_, ?_, ?_, ?_⟩
  · intro hk hs
    obtain ⟨k, rfl⟩ := Option.isSome_iff_exists.mp hk
    simp [app_handle_keyfile_conflict L quiet kf section_ k v hs]
  · rintro rfl rfl
    simp [app_handle_keyfile]
  · intro hk hs hg
    obtain ⟨k, rfl⟩ := Option.isSome_iff_exists.mp hk
    subst hs
    simp [app_handle_keyfile_no_sections L quiet kf k _ _ hg]
  · rintro s rfl rfl
    refine ⟨by simp [app_handle_keyfile], ?_, ?_⟩
    · intro kf1 hg
      simp [app_handle_keyfile, hg]
    · intro e hg
      simp [app_handle_keyfile, hg]

/-- C1 (amended), at the two-section document: with key `x` and no section
named the hypotheses of the first case hold and the result is `RET_CMDLINE`;
with section `a` and no key the value is ignored and section `a` is removed. -/
theorem app_handle_keyfile_set_and_remove_witness :
    ((app_handle_keyfile specKeyFile false docAB none (some "x") (some "v")
        true).ret = RET_CMDLINE ∧
      (app_handle_keyfile specKeyFile false docAB none (some "x") (some "v")
        true).keyfile = docAB ∧
      (app_handle_keyfile specKeyFile false docAB none (some "x") (some "v")
        true).out = "") ∧
    app_handle_keyfile specKeyFile false docAB (some "a") none (some "v")
        true =
      ⟨RET_FILE_UPDATED, ⟨[⟨"b", [⟨"y", "2", none, none⟩], none⟩], none⟩, "",
        []⟩ :=
  ⟨(app_handle_keyfile_set_and_remove specKeyFile false docAB none (some "x")
      "v").1 rfl (Or.inr (by decide)),
    ((app_handle_keyfile_set_and_remove specKeyFile false docAB (some "a")
      none "v").2.2.2 "a" rfl rfl).2.1
      ⟨[⟨"b", [⟨"y", "2", none, none⟩], none⟩], none⟩ rfl⟩

/-! ## C2: a value together with remove, through `app_run` -/

/-- C2 (as stated, refuted): with section `a`, key `x`, value `v` and remove
requested, `app_run` returns `RET_FILE_NOT_FOUND` for a path that does not
exist, `RET_FILE_LOAD_ERROR` for a file the loader rejects and `RET_CMDLINE`
for a file that loads: the result depends on the file. -/
theorem app_run_set_and_remove_depends_on_file :
    (app_run specKeyFile (tableHost tableAB) false "missing.conf" (some "a")
        (some "x") (some "v") true).ret = RET_FILE_NOT_FOUND ∧
    (app_run specKeyFile (tableHost tableAB) false "bad.conf" (some "a")
        (some "x") (some "v") true).ret = RET_FILE_LOAD_ERROR ∧
    (app_run specKeyFile (tableHost tableAB) false "a.conf" (some "a")
        (some "x") (some "v") true).ret = RET_CMDLINE := by
  refine ⟨?_, ?_, ?_⟩ <;> decide

/-- C2 (amended): with a key, a value and remove requested, `app_run` first
locates and loads the file: it returns `RET_FILE_NOT_FOUND` when the path is
missing, `RET_FILE_LOAD_ERROR` when the loader rejects the content, and, once
the content has loaded, `RET_CMDLINE` when the section is given or the key
file has at least one section.  In every case nothing is dumped to stdout and
`g_file_set_contents` is not called. -/
theorem app_run_set_and_remove {KF E D : Type} (L : KeyFileApi KF E)
    (H : Host KF E D) (quiet : Bool) (file : String)
    (section_ : Option String) (k v : String) :
    (H.missing file →
      (app_run L H quiet file section_ (some k) (some v) true).ret =
        RET_FILE_NOT_FOUND) ∧
    (H.load_fails file GKeyFileFlags.G_KEY_FILE_KEEP_COMMENTS →
      (app_run L H quiet file section_ (some k) (some v) true).ret =
        RET_FILE_LOAD_ERROR) ∧
    (∀ kf, H.loads file GKeyFileFlags.G_KEY_FILE_KEEP_COMMENTS kf →
      (section_.isSome ∨ L.get_groups kf ≠ []) →
      (app_run L H quiet file section_ (some k) (some v) true).ret =
        RET_CMDLINE) ∧
    (∀ kf, H.loads file GKeyFileFlags.G_KEY_FILE_KEEP_COMMENTS kf →
      section_ = none → L.get_groups kf = [] →
      (app_run L H quiet file section_ (some k) (some v) true).ret =
        RET_SECTION_NOT_FOUND) ∧
    (app_run L H quiet file section_ (some k) (some v) true).dump = none ∧
    (app_run L H quiet file section_ (some k) (some v) true).save = none := by
  have hflags : app_run_flags (some v) true =
      GKeyFileFlags.G_KEY_FILE_KEEP_COMMENTS := rfl
  have hnot : ∀ kf, (app_handle_keyfile L quiet kf section_ (some k) (some v)
      true).ret ≠ RET_FILE_UPDATED := by
    intro kf
    cases section_ with
    | some s => simp [app_handle_keyfile, app_handle_key_set_and_remove]
    | none =>
      cases hg : L.get_groups kf with
      | nil => simp [app_handle_keyfile_no_sections L quiet kf k _ _ hg]
      | cons s rest =>
        simp [app_handle_keyfile_first L quiet kf s rest k _ _ hg,
          app_handle_key_set_and_remove]
  refine ⟨?_, ?_, ?_, ?_, ?_⟩
  · intro h
    rw [app_run_missing L H quiet file _ _ _ _ h]
  · intro h
    obtain ⟨e, he⟩ := app_run_load_fails L H quiet file section_ (some k)
      (some v) true (hflags ▸ h)
    rw [he]
  · intro kf h hs
    rw [app_run_loads_not_updated L H quiet file _ _ _ _ kf (hflags ▸ h)
      (hnot kf)]
    rw [app_handle_keyfile_conflict L quiet kf section_ k v hs]
  · intro kf h hs hg
    rw [app_run_loads_not_updated L H quiet file _ _ _ _ kf (hflags ▸ h)
      (hnot kf)]
    subst hs
    rw [app_handle_keyfile_no_sections L quiet kf k _ _ hg]
  · rcases H.cases file GKeyFileFlags.G_KEY_FILE_KEEP_COMMENTS with
      h | h | ⟨kf, h⟩
    · rw [app_run_missing L H quiet file _ _ _ _ h]
      exact ⟨rfl, rfl⟩
    · obtain ⟨e, he⟩ := app_run_load_fails L H quiet file section_ (some k)
        (some v) true (hflags ▸ h)
      rw [he]
      exact ⟨rfl, rfl⟩
    · rw [app_run_loads_not_updated L H quiet file _ _ _ _ kf (hflags ▸ h)
        (hnot kf)]
      exact ⟨rfl, rfl⟩

/-- C2 (amended), at the loadable file `a.conf` with section `a`: the file
loads, the section is given, and the result is `RET_CMDLINE`. -/
theorem app_run_set_and_remove_witness :
    (app_run specKeyFile (tableHost tableAB) true "a.conf" (some "a")
        (some "x") (some "v") true).ret = RET_CMDLINE :=
  (app_run_set_and_remove specKeyFile (tableHost tableAB) true "a.conf"
    (some "a") "x" "v").2.2.1 docAB (Or.inr ⟨by decide, rfl, rfl⟩)
    (Or.inl rfl)

/-! ## C4: a key without a section, on a key file without sections -/

/-- C4 (as stated, refuted): set of key `k` to `v` with no section named, on
the document without sections, returns `RET_SECTION_NOT_FOUND`, not
`RET_FILE_UPDATED`, and the document still has no sections. -/
theorem app_handle_keyfile_set_no_sections :
    (app_handle_keyfile specKeyFile false docEmpty none (some "k") (some "v")
        false).ret = RET_SECTION_NOT_FOUND ∧
    (app_handle_keyfile specKeyFile false docEmpty none (some "k") (some "v")
        false).ret ≠ RET_FILE_UPDATED ∧
    (app_handle_keyfile specKeyFile false docEmpty none (some "k") (some "v")
        false).keyfile = docEmpty := by
  refine ⟨?_, ?_, ?_⟩ <;> decide

/-- C4 (amended): when no section is named, a key is given and the key file
has no sections, `app_handle_keyfile` returns `RET_SECTION_NOT_FOUND` for get,
set and remove alike, leaves the key file unchanged (no section is created)
and prints nothing on stdout. -/
theorem app_handle_keyfile_key_no_sections {KF E : Type}
    (L : KeyFileApi KF E) (quiet : Bool) (kf : KF) (k : String)
    (value : Option String) (remove : Bool) (h : L.get_groups kf = []) :
    (app_handle_keyfile L quiet kf none (some k) value remove).ret =
      RET_SECTION_NOT_FOUND ∧
    (app_handle_keyfile L quiet kf none (some k) value remove).keyfile = kf ∧
    (app_handle_keyfile L quiet kf none (some k) value remove).out = "" := by
  simp [app_handle_keyfile_no_sections L quiet kf k value remove h]

/-- C4 (amended), at the document without sections, for a set. -/
theorem app_handle_keyfile_key_no_sections_witness :
    (app_handle_keyfile specKeyFile true docEmpty none (some "k") (some "v")
        false).ret = RET_SECTION_NOT_FOUND ∧
    (app_handle_keyfile specKeyFile true docEmpty none (some "k") (some "v")
        false).keyfile = docEmpty ∧
    (app_handle_keyfile specKeyFile true docEmpty none (some "k") (some "v")
        false).out = "" :=
  app_handle_keyfile_key_no_sections specKeyFile true docEmpty "k" (some "v")
    false rfl

/-! ## C3: the implicit first section -/

/-- C3: when the key file has at least one section and a key is given without
a section, `app_handle_keyfile` gives the same return code, the same output
and the same resulting key file as the call with the section set to the first
name `g_key_file_get_groups` lists (for any library); on the reference
document this is the name of the first section in document order; and on the
document of `[a] x=1 [b] y=2`, get of `x` prints `1` and get of `y` is
`RET_KEY_NOT_FOUND`. -/
theorem app_handle_keyfile_implicit_first_section :
    (∀ (KF E : Type) (L : KeyFileApi KF E) (quiet : Bool) (kf : KF)
        (s : String) (rest : List String) (k : String)
        (value : Option String) (remove : Bool),
      L.get_groups kf = s :: rest →
      app_handle_keyfile L quiet kf none (some k) value remove =
        app_handle_keyfile L quiet kf (some s) (some k) value remove) ∧
    (∀ (quiet : Bool) (first : Section) (others : List Section)
        (c : Option String) (k : String) (value : Option String)
        (remove : Bool),
      app_handle_keyfile specKeyFile quiet ⟨first :: others, c⟩ none (some k)
          value remove =
        app_handle_keyfile specKeyFile quiet ⟨first :: others, c⟩
          (some first.name) (some k) value remove) ∧
    (app_handle_keyfile specKeyFile false docAB none (some "x") none
        false).ret = RET_OK ∧
    (app_handle_keyfile specKeyFile false docAB none (some "x") none
        false).out = "1" ∧
    (app_handle_keyfile specKeyFile false docAB none (some "y") none
        false).ret = RET_KEY_NOT_FOUND ∧
    (app_handle_keyfile specKeyFile false docAB none (some "y") none
        false).out = "" := by
  refine ⟨?_, ?_, by decide, by decide, by decide, by decide⟩
  · intro KF E L quiet kf s rest k value remove h
    rw [app_handle_keyfile_first L quiet kf s rest k value remove h]
    rfl
  · intro quiet first others c k value remove
    rw [app_handle_keyfile_first specKeyFile quiet ⟨first :: others, c⟩
      first.name (others.map (fun s : Section => s.name)) k value remove rfl]
    rfl

/-- C3, at the two-section document with a set: the section-less call equals
the call that names section `a`. -/
theorem app_handle_keyfile_implicit_first_section_witness :
    app_handle_keyfile specKeyFile false docAB none (some "x") (some "9")
        false =
      app_handle_keyfile specKeyFile false docAB (some "a") (some "x")
        (some "9") false :=
  app_handle_keyfile_implicit_first_section.1 Document KeyFileError
    specKeyFile false docAB "a" ["b"] "x" (some "9") false rfl

/-! ## C5: get and the listings do not modify anything -/

/-- C5: with no value and remove not requested, `app_handle_keyfile` leaves the
key file unchanged and does not return `RET_FILE_UPDATED`, and `app_run` dumps
nothing and does not call `g_file_set_contents`; `app_handle_keyfile` returns
`RET_FILE_UPDATED` only when a value is given or remove is requested. -/
theorem app_handle_keyfile_query_unchanged {KF E D : Type}
    (L : KeyFileApi KF E) (H : Host KF E D) (quiet : Bool) (kf : KF)
    (file : String) (section_ key : Option String) :
    (app_handle_keyfile L quiet kf section_ key none false).keyfile = kf ∧
    (app_handle_keyfile L quiet kf section_ key none false).ret ≠
      RET_FILE_UPDATED ∧
    (app_run L H quiet file section_ key none false).dump = none ∧
    (app_run L H quiet file section_ key none false).save = none ∧
    (app_run L H quiet file section_ key none false).ret ≠ RET_FILE_UPDATED ∧
    (∀ (value : Option String) (remove : Bool),
      (app_handle_keyfile L quiet kf section_ key value remove).ret =
        RET_FILE_UPDATED → value.isSome = true ∨ remove = true) := by
  have hq : ∀ kf1 : KF,
      (app_handle_keyfile L quiet kf1 section_ key none false).keyfile = kf1 ∧
      (app_handle_keyfile L quiet kf1 section_ key none false).ret ≠
        RET_FILE_UPDATED := by
    intro kf1
    cases section_ with
    | some s =>
      cases key with
      | some k =>
        simp only [app_handle_keyfile, app_handle_key]
        cases L.get_string kf1 s k <;> simp
      | none =>
        simp only [app_handle_keyfile]
        cases L.get_keys kf1 s <;> simp
    | none =>
      cases key with
      | some k =>
        cases hg : L.get_groups kf1 with
        | nil => simp [app_handle_keyfile_no_sections L quiet kf1 k _ _ hg]
        | cons s rest =>
          rw [app_handle_keyfile_first L quiet kf1 s rest k _ _ hg]
          simp only [app_handle_key]
          cases L.get_string kf1 s k <;> simp
      | none => simp [app_handle_keyfile]
  have hrun : (app_run L H quiet file section_ key none false).dump = none ∧
      (app_run L H quiet file section_ key none false).save = none ∧
      (app_run L H quiet file section_ key none false).ret ≠
        RET_FILE_UPDATED := by
    rcases H.cases file (app_run_flags none false) with h | h | ⟨kf1, h⟩
    · rw [app_run_missing L H quiet file _ _ _ _ h]
      simp
    · obtain ⟨e, he⟩ := app_run_load_fails L H quiet file section_ key none
        false h
      rw [he]
      simp
    · rw [app_run_loads_not_updated L H quiet file _ _ _ _ kf1 h (hq kf1).2]
      exact ⟨rfl, rfl, (hq kf1).2⟩
  refine ⟨(hq kf).1, (hq kf).2, hrun.1, hrun.2.1, hrun.2.2, ?_⟩
  intro value remove hu
  cases value with
  | some v => exact Or.inl rfl
  | none =>
    cases remove with
    | true => exact Or.inr rfl
    | false => exact absurd hu (hq kf).2

/-- C5, on the two-section document: removing key `x` of section `a` returns
`RET_FILE_UPDATED`, and remove was requested. -/
theorem app_handle_keyfile_query_unchanged_witness :
    (app_handle_keyfile specKeyFile false docAB (some "a") (some "x") none
        true).ret = RET_FILE_UPDATED ∧
    ((none : Option String).isSome = true ∨ true = true) :=
  ⟨by decide,
    (app_handle_keyfile_query_unchanged specKeyFile (tableHost tableAB) false
      docAB "a.conf" (some "a") (some "x")).2.2.2.2.2 none true (by decide)⟩

/-! ## C6: removing a key that is not there -/

/-- C6: whenever `g_key_file_remove_key` fails (any library), remove of a key
of a section returns `RET_KEY_NOT_FOUND`, leaves the key file unchanged and
prints nothing on stdout, and `app_run`, once it has loaded that key file,
returns `RET_KEY_NOT_FOUND` (value 6), dumps nothing and does not call
`g_file_set_contents`.  On the reference key file this is the case whenever
no section named `s` has an entry `k`. -/
theorem app_handle_keyfile_remove_missing_key :
    (∀ (KF E D : Type) (L : KeyFileApi KF E) (H : Host KF E D) (quiet : Bool)
        (kf : KF) (s k : String) (file : String),
      (∃ e, L.remove_key kf s k = .error e) →
      (app_handle_keyfile L quiet kf (some s) (some k) none true).ret =
        RET_KEY_NOT_FOUND ∧
      (app_handle_keyfile L quiet kf (some s) (some k) none true).keyfile =
        kf ∧
      (app_handle_keyfile L quiet kf (some s) (some k) none true).out = "" ∧
      (H.loads file GKeyFileFlags.G_KEY_FILE_KEEP_COMMENTS kf →
        (app_run L H quiet file (some s) (some k) none true).ret =
          RET_KEY_NOT_FOUND ∧
        (app_run L H quiet file (some s) (some k) none true).dump = none ∧
        (app_run L H quiet file (some s) (some k) none true).save = none)) ∧
    (∀ (D : Type) (H : Host Document KeyFileError D) (quiet : Bool)
        (d : Document) (s k : String) (file : String),
      ¬ d.hasEntry s k →
      (app_handle_keyfile specKeyFile quiet d (some s) (some k) none
        true).ret = RET_KEY_NOT_FOUND ∧
      (app_handle_keyfile specKeyFile quiet d (some s) (some k) none
        true).ret ≠ RET_FILE_UPDATED ∧
      (app_handle_keyfile specKeyFile quiet d (some s) (some k) none
        true).keyfile = d ∧
      (app_handle_keyfile specKeyFile quiet d (some s) (some k) none
        true).out = "" ∧
      (H.loads file GKeyFileFlags.G_KEY_FILE_KEEP_COMMENTS d →
        (app_run specKeyFile H quiet file (some s) (some k) none true).ret =
          RET_KEY_NOT_FOUND ∧
        (app_run specKeyFile H quiet file (some s) (some k) none
          true).dump = none ∧
        (app_run specKeyFile H quiet file (some s) (some k) none
          true).save = none)) ∧
    RET_KEY_NOT_FOUND.toInt = 6 := by
  have hgen : ∀ (KF E D : Type) (L : KeyFileApi KF E) (H : Host KF E D)
      (quiet : Bool) (kf : KF) (s k : String) (file : String),
      (∃ e, L.remove_key kf s k = .error e) →
      (app_handle_keyfile L quiet kf (some s) (some k) none true).ret =
        RET_KEY_NOT_FOUND ∧
      (app_handle_keyfile L quiet kf (some s) (some k) none true).keyfile =
        kf ∧
      (app_handle_keyfile L quiet kf (some s) (some k) none true).out = "" ∧
      (H.loads file GKeyFileFlags.G_KEY_FILE_KEEP_COMMENTS kf →
        (app_run L H quiet file (some s) (some k) none true).ret =
          RET_KEY_NOT_FOUND ∧
        (app_run L H quiet file (some s) (some k) none true).dump = none ∧
        (app_run L H quiet file (some s) (some k) none true).save = none) := by
    intro KF E D L H quiet kf s k file ⟨err, he⟩
    have hk : app_handle_keyfile L quiet kf (some s) (some k) none true =
        ⟨RET_KEY_NOT_FOUND, kf, "", app_error quiet err⟩ := by
      simp [app_handle_keyfile, app_handle_key, he]
    refine ⟨by rw [hk], by rw [hk], by rw [hk], ?_⟩
    intro hl
    have hflags : app_run_flags none true =
        GKeyFileFlags.G_KEY_FILE_KEEP_COMMENTS := rfl
    rw [app_run_loads_not_updated L H quiet file _ _ _ _ kf (hflags ▸ hl)
      (by rw [hk]; simp)]
    exact ⟨by rw [hk], rfl, rfl⟩
  refine ⟨hgen, ?_, rfl⟩
  intro D H quiet d s k file h
  have hg := hgen Document KeyFileError D specKeyFile H quiet d s k file
    (Document.remove_key_error d s k h)
  exact ⟨hg.1, by rw [hg.1]; simp, hg.2.1, hg.2.2.1, hg.2.2.2⟩

/-- C6, on the two-section document: section `a` has no entry `missing`, and
the file `a.conf` loads to that document. -/
theorem app_handle_keyfile_remove_missing_key_witness :
    ¬ docAB.hasEntry "a" "missing" ∧
    (app_handle_keyfile specKeyFile false docAB (some "a") (some "missing")
        none true).ret = RET_KEY_NOT_FOUND ∧
    (app_handle_keyfile specKeyFile false docAB (some "a") (some "missing")
        none true).keyfile = docAB ∧
    (app_run specKeyFile (tableHost tableAB) false "a.conf" (some "a")
        (some "missing") none true).save = none :=
  have h : ¬ docAB.hasEntry "a" "missing" := by
    simp [Document.hasEntry, docAB]
  have hw := app_handle_keyfile_remove_missing_key.2.1 Content
    (tableHost tableAB) false docAB "a" "missing" "a.conf" h
  ⟨h, hw.1, hw.2.2.1,
    (hw.2.2.2.2 (Or.inr ⟨by decide, rfl, rfl⟩)).2.2⟩

/-! ## C8: set, then get -/

/-- C8: for a library in which `g_key_file_get_string` returns what
`g_key_file_set_string` has just stored, set of (section, key, value) returns
`RET_FILE_UPDATED` and get of the same section and key on the resulting key
file returns `RET_OK`, prints exactly the value and leaves that key file
unchanged.  The reference key file is such a library, for all section, key and
value strings, the empty value included. -/
theorem app_handle_keyfile_set_then_get :
    (∀ (KF E : Type) (L : KeyFileApi KF E) (quiet : Bool) (kf : KF)
        (s k v : String),
      L.get_string (L.set_string kf s k v) s k = .ok v →
      (app_handle_keyfile L quiet kf (some s) (some k) (some v) false).ret =
        RET_FILE_UPDATED ∧
      app_handle_keyfile L quiet
        (app_handle_keyfile L quiet kf (some s) (some k) (some v)
          false).keyfile (some s) (some k) none false =
        ⟨RET_OK,
          (app_handle_keyfile L quiet kf (some s) (some k) (some v)
            false).keyfile, v, []⟩) ∧
    (∀ (quiet : Bool) (d : Document) (s k v : String),
      (app_handle_keyfile specKeyFile quiet d (some s) (some k) (some v)
        false).ret = RET_FILE_UPDATED ∧
      app_handle_keyfile specKeyFile quiet
        (app_handle_keyfile specKeyFile quiet d (some s) (some k) (some v)
          false).keyfile (some s) (some k) none false =
        ⟨RET_OK,
          (app_handle_keyfile specKeyFile quiet d (some s) (some k) (some v)
            false).keyfile, v, []⟩) ∧
    (app_handle_keyfile specKeyFile false
      (app_handle_keyfile specKeyFile false docEmpty (some "s") (some "k")
        (some "") false).keyfile (some "s") (some "k") none false).out = "" := by
  have hgen : ∀ (KF E : Type) (L : KeyFileApi KF E) (quiet : Bool) (kf : KF)
      (s k v : String),
      L.get_string (L.set_string kf s k v) s k = .ok v →
      (app_handle_keyfile L quiet kf (some s) (some k) (some v) false).ret =
        RET_FILE_UPDATED ∧
      app_handle_keyfile L quiet
        (app_handle_keyfile L quiet kf (some s) (some k) (some v)
          false).keyfile (some s) (some k) none false =
        ⟨RET_OK,
          (app_handle_keyfile L quiet kf (some s) (some k) (some v)
            false).keyfile, v, []⟩ := by
    intro KF E L quiet kf s k v hlaw
    have hset : app_handle_keyfile L quiet kf (some s) (some k) (some v)
        false = ⟨RET_FILE_UPDATED, L.set_string kf s k v, "", []⟩ := by
      simp [app_handle_keyfile, app_handle_key]
    rw [hset]
    simp [app_handle_keyfile, app_handle_key, hlaw]
  refine ⟨hgen, ?_, by decide⟩
  intro quiet d s k v
  exact hgen Document KeyFileError specKeyFile quiet d s k v
    (Document.get_string_set_string d s k v)

/-- C8, on the two-section document: setting `x` of section `a` to `7` and
reading it back prints `7`. -/
theorem app_handle_keyfile_set_then_get_witness :
    (app_handle_keyfile specKeyFile false
      (app_handle_keyfile specKeyFile false docAB (some "a") (some "x")
        (some "7") false).keyfile (some "a") (some "x") none false).out =
      "7" :=
  congrArg Outcome.out
    (app_handle_keyfile_set_then_get.1 Document KeyFileError specKeyFile false
      docAB "a" "x" "7" rfl).2

/-! ## C9: the listings -/

/-- C9: with no key and remove not requested, and no section, the tool prints
the names `g_key_file_get_groups` returns, in that order, each followed by a
newline, and returns `RET_OK`; with a section it prints in the same way the
names `g_key_file_get_keys` returns, or returns `RET_SECTION_NOT_FOUND` with
nothing on stdout when that call fails (any library).  On the reference key
file these are the section names in document order, the keys in order of the
named section (document with unique section names), and
`RET_SECTION_NOT_FOUND` when no section has the name.  The key file is
unchanged in each case. -/
theorem app_handle_keyfile_listings :
    (∀ (KF E : Type) (L : KeyFileApi KF E) (quiet : Bool) (kf : KF)
        (value : Option String),
      app_handle_keyfile L quiet kf none none value false =
        ⟨RET_OK, kf,
          String.join ((L.get_groups kf).map (fun s => s ++ "\n")), []⟩ ∧
      (∀ (s : String) (keys : List String), L.get_keys kf s = .ok keys →
        app_handle_keyfile L quiet kf (some s) none value false =
          ⟨RET_OK, kf, String.join (keys.map (fun x => x ++ "\n")), []⟩) ∧
      (∀ (s : String) (e : E), L.get_keys kf s = .error e →
        (app_handle_keyfile L quiet kf (some s) none value false).ret =
          RET_SECTION_NOT_FOUND ∧
        (app_handle_keyfile L quiet kf (some s) none value false).out = "" ∧
        (app_handle_keyfile L quiet kf (some s) none value false).keyfile =
          kf)) ∧
    (∀ (quiet : Bool) (d : Document) (value : Option String),
      app_handle_keyfile specKeyFile quiet d none none value false =
        ⟨RET_OK, d,
          String.join (d.sections.map (fun s => s.name ++ "\n")), []⟩ ∧
      (∀ sec ∈ d.sections, (d.sections.map (fun x => x.name)).Nodup →
        app_handle_keyfile specKeyFile quiet d (some sec.name) none value
            false =
          ⟨RET_OK, d,
            String.join (sec.entries.map (fun e => e.key ++ "\n")), []⟩) ∧
      (∀ name : String, (∀ sec ∈ d.sections, sec.name ≠ name) →
        (app_handle_keyfile specKeyFile quiet d (some name) none value
          false).ret = RET_SECTION_NOT_FOUND ∧
        (app_handle_keyfile specKeyFile quiet d (some name) none value
          false).out = "" ∧
        (app_handle_keyfile specKeyFile quiet d (some name) none value
          false).keyfile = d)) := by
  constructor
  · intro KF E L quiet kf value
    refine ⟨?_, ?_, ?_⟩
    · simp [app_handle_keyfile, app_print_strv_eq_join]
    · intro s keys hk
      simp [app_handle_keyfile, app_print_strv_eq_join, hk]
    · intro s e hk
      simp [app_handle_keyfile, hk]
  · intro quiet d value
    refine ⟨?_, ?_, ?_⟩
    · simp [app_handle_keyfile, app_print_strv_eq_join, specKeyFile,
        Document.get_groups, List.map_map, Function.comp_def]
    · intro sec hs hu
      simp [app_handle_keyfile, app_print_strv_eq_join, specKeyFile,
        Document.get_keys, Section.lookup_mem d.sections sec hu hs,
        List.map_map, Function.comp_def]
    · intro name hn
      simp [app_handle_keyfile, specKeyFile, Document.get_keys,
        Section.lookup_eq_none d.sections name hn]

/-- C9, on the two-section document: the keys of section `b`, and the sections
themselves in document order. -/
theorem app_handle_keyfile_listings_witness :
    app_handle_keyfile specKeyFile false docAB (some "b") none none false =
      ⟨RET_OK, docAB, "y\n", []⟩ ∧
    app_handle_keyfile specKeyFile false docAB none none none false =
      ⟨RET_OK, docAB, "a\nb\n", []⟩ :=
  ⟨((app_handle_keyfile_listings.2 false docAB none).2.1
      ⟨"b", [⟨"y", "2", none, none⟩], none⟩ (by decide) (by decide)).trans
      (by decide),
    (app_handle_keyfile_listings.2 false docAB none).1.trans (by decide)⟩

/-! ## C10: where `RET_SECTION_NOT_FOUND` can come from -/

/-- C10: with both section and key given, `app_handle_keyfile` never returns
`RET_SECTION_NOT_FOUND`: get returns `RET_OK` or `RET_KEY_NOT_FOUND` and remove
returns `RET_FILE_UPDATED` or `RET_KEY_NOT_FOUND`, whatever the library
reports, and on the reference key file both return `RET_KEY_NOT_FOUND` when
no section has the given name.  `RET_SECTION_NOT_FOUND` is returned only when
a section is given without a key, after `g_key_file_remove_group` (remove) or
`g_key_file_get_keys` (list) failed, or with a key and no section on a key
file without sections. -/
theorem app_handle_keyfile_section_not_found {KF E : Type}
    (L : KeyFileApi KF E) (quiet : Bool) (kf : KF) :
    (∀ (s k : String) (value : Option String) (remove : Bool),
      (app_handle_keyfile L quiet kf (some s) (some k) value remove).ret ≠
        RET_SECTION_NOT_FOUND) ∧
    (∀ s k : String,
      (app_handle_keyfile L quiet kf (some s) (some k) none false).ret =
          RET_OK ∨
        (app_handle_keyfile L quiet kf (some s) (some k) none false).ret =
          RET_KEY_NOT_FOUND) ∧
    (∀ s k : String,
      (app_handle_keyfile L quiet kf (some s) (some k) none true).ret =
          RET_FILE_UPDATED ∨
        (app_handle_keyfile L quiet kf (some s) (some k) none true).ret =
          RET_KEY_NOT_FOUND) ∧
    (∀ (d : Document) (s k : String), (∀ sec ∈ d.sections, sec.name ≠ s) →
      (app_handle_keyfile specKeyFile quiet d (some s) (some k) none
          false).ret = RET_KEY_NOT_FOUND ∧
      (app_handle_keyfile specKeyFile quiet d (some s) (some k) none
          true).ret = RET_KEY_NOT_FOUND) ∧
    (∀ (section_ key value : Option String) (remove : Bool),
      (app_handle_keyfile L quiet kf section_ key value remove).ret =
        RET_SECTION_NOT_FOUND →
      (∃ s, section_ = some s ∧ key = none ∧
        ((remove = true ∧ ∃ e, L.remove_group kf s = .error e) ∨
          (remove = false ∧ ∃ e, L.get_keys kf s = .error e))) ∨
      (section_ = none ∧ key.isSome = true ∧ L.get_groups kf = [])) := by
  have hkey : ∀ (s k : String) (value : Option String) (remove : Bool),
      (app_handle_key L quiet kf s k value remove).ret ≠
        RET_SECTION_NOT_FOUND := by
    intro s k value remove
    cases remove <;> cases value <;> simp only [app_handle_key]
    · cases L.get_string kf s k <;> simp
    · simp
    · cases L.remove_key kf s k <;> simp
    · simp
  refine ⟨?_, ?_, ?_, ?_, ?_⟩
  · intro s k value remove
    exact hkey s k value remove
  · intro s k
    simp only [app_handle_keyfile, app_handle_key]
    cases L.get_string kf s k <;> simp
  · intro s k
    simp only [app_handle_keyfile, app_handle_key]
    cases L.remove_key kf s k <;> simp
  · intro d s k hs
    have hnot : ¬ d.hasEntry s k := fun ⟨sec, hm, hn, _⟩ => hs sec hm hn
    obtain ⟨err, he⟩ := Document.remove_key_error d s k hnot
    have hl := Section.lookup_eq_none d.sections s hs
    constructor
    · simp [app_handle_keyfile, app_handle_key, specKeyFile,
        Document.get_string, hl]
    · simp [app_handle_keyfile, app_handle_key, he]
  · intro section_ key value remove hr
    cases section_ with
    | some s =>
      cases key with
      | some k => exact absurd hr (hkey s k value remove)
      | none =>
        refine Or.inl ⟨s, rfl, rfl, ?_⟩
        cases remove with
        | true =>
          cases hg : L.remove_group kf s with
          | ok kf1 => simp [app_handle_keyfile, hg] at hr
          | error e => exact Or.inl ⟨rfl, e, rfl⟩
        | false =>
          cases hg : L.get_keys kf s with
          | ok strv => simp [app_handle_keyfile, hg] at hr
          | error e => exact Or.inr ⟨rfl, e, rfl⟩
    | none =>
      cases key with
      | some k =>
        cases hg : L.get_groups kf with
        | nil => exact Or.inr ⟨rfl, rfl, rfl⟩
        | cons s rest =>
          rw [app_handle_keyfile_first L quiet kf s rest k value remove hg]
            at hr
          exact absurd hr (hkey s k value remove)
      | none =>
        cases remove <;> simp [app_handle_keyfile] at hr

/-- C10, on the two-section document: no section is called `zz`, and get and
remove of (`zz`, `x`) both return `RET_KEY_NOT_FOUND`. -/
theorem app_handle_keyfile_section_not_found_witness :
    (∀ sec ∈ docAB.sections, sec.name ≠ "zz") ∧
    (app_handle_keyfile specKeyFile false docAB (some "zz") (some "x") none
        false).ret = RET_KEY_NOT_FOUND ∧
    (app_handle_keyfile specKeyFile false docAB (some "zz") (some "x") none
        true).ret = RET_KEY_NOT_FOUND :=
  ⟨by decide,
    (app_handle_keyfile_section_not_found specKeyFile false docAB).2.2.2.1
      docAB "zz" "x" (by decide)⟩

/-! ## C7: the exit code -/

/-- C7: the value `app_run` returns lies in 0..6 and is never
`RET_FILE_UPDATED` (-1).  It is `RET_FILE_NOT_FOUND` (2) exactly when the path
is missing, `RET_FILE_LOAD_ERROR` (3) exactly when loading fails,
`RET_FILE_UPDATE_ERROR` (4) exactly when the handler updated the loaded key
file and `g_file_set_contents` failed, `RET_OK` (0) exactly when the handler
printed a value or a listing, or updated the key file and the result was
dumped to stdout or written to the file, and `RET_CMDLINE` (1),
`RET_SECTION_NOT_FOUND` (5), `RET_KEY_NOT_FOUND` (6) exactly when the handler
returned that code for the loaded key file; `RET_CMDLINE` is returned only
for remove together with a value, or remove without section and key. -/
theorem app_run_exit_code {KF E D : Type} (L : KeyFileApi KF E)
    (H : Host KF E D) (quiet : Bool) (file : String)
    (section_ key value : Option String) (remove : Bool) :
    (0 ≤ (app_run L H quiet file section_ key value remove).ret.toInt ∧
      (app_run L H quiet file section_ key value remove).ret.toInt ≤ 6) ∧
    (app_run L H quiet file section_ key value remove).ret ≠
      RET_FILE_UPDATED ∧
    (RET_FILE_UPDATED.toInt = -1 ∧ RET_OK.toInt = 0 ∧ RET_CMDLINE.toInt = 1 ∧
      RET_FILE_NOT_FOUND.toInt = 2 ∧ RET_FILE_LOAD_ERROR.toInt = 3 ∧
      RET_FILE_UPDATE_ERROR.toInt = 4 ∧ RET_SECTION_NOT_FOUND.toInt = 5 ∧
      RET_KEY_NOT_FOUND.toInt = 6) ∧
    ((app_run L H quiet file section_ key value remove).ret =
        RET_FILE_NOT_FOUND ↔ H.missing file) ∧
    ((app_run L H quiet file section_ key value remove).ret =
        RET_FILE_LOAD_ERROR ↔
      H.load_fails file (app_run_flags value remove)) ∧
    ((app_run L H quiet file section_ key value remove).ret =
        RET_FILE_UPDATE_ERROR ↔
      ∃ kf, H.loads file (app_run_flags value remove) kf ∧
        (app_handle_keyfile L quiet kf section_ key value remove).ret =
          RET_FILE_UPDATED ∧
        file ≠ STANDARD_INPUT ∧
        ∃ e, H.file_set_contents file (H.to_data
          (app_handle_keyfile L quiet kf section_ key value
            remove).keyfile) = .error e) ∧
    ((app_run L H quiet file section_ key value remove).ret = RET_OK ↔
      ∃ kf, H.loads file (app_run_flags value remove) kf ∧
        ((app_handle_keyfile L quiet kf section_ key value remove).ret =
            RET_OK ∨
          ((app_handle_keyfile L quiet kf section_ key value remove).ret =
              RET_FILE_UPDATED ∧
            (file = STANDARD_INPUT ∨
              ∃ u, H.file_set_contents file (H.to_data
                (app_handle_keyfile L quiet kf section_ key value
                  remove).keyfile) = .ok u)))) ∧
    ((app_run L H quiet file section_ key value remove).ret = RET_CMDLINE ↔
      ∃ kf, H.loads file (app_run_flags value remove) kf ∧
        (app_handle_keyfile L quiet kf section_ key value remove).ret =
          RET_CMDLINE) ∧
    ((app_run L H quiet file section_ key value remove).ret =
        RET_SECTION_NOT_FOUND ↔
      ∃ kf, H.loads file (app_run_flags value remove) kf ∧
        (app_handle_keyfile L quiet kf section_ key value remove).ret =
          RET_SECTION_NOT_FOUND) ∧
    ((app_run L H quiet file section_ key value remove).ret =
        RET_KEY_NOT_FOUND ↔
      ∃ kf, H.loads file (app_run_flags value remove) kf ∧
        (app_handle_keyfile L quiet kf section_ key value remove).ret =
          RET_KEY_NOT_FOUND) ∧
    ((app_run L H quiet file section_ key value remove).ret = RET_CMDLINE →
      remove = true ∧
        (value.isSome = true ∨ (section_ = none ∧ key = none))) := by
  rcases H.cases file (app_run_flags value remove) with h | h | ⟨kf, h⟩
  · have hr : (app_run L H quiet file section_ key value remove).ret =
        RET_FILE_NOT_FOUND := by
      rw [app_run_missing L H quiet file _ _ _ _ h]
    have hl : ∀ kf, ¬ H.loads file (app_run_flags value remove) kf :=
      fun kf => H.missing_not_loads file _ kf h
    have hf := H.missing_not_load_fails file (app_run_flags value remove) h
    rw [hr]
    simp [RET_VAL.toInt, h, hl, hf]
  · have hr : (app_run L H quiet file section_ key value remove).ret =
        RET_FILE_LOAD_ERROR := by
      obtain ⟨e, he⟩ := app_run_load_fails L H quiet file section_ key value
        remove h
      rw [he]
    have hl : ∀ kf, ¬ H.loads file (app_run_flags value remove) kf :=
      fun kf => H.load_fails_not_loads file _ kf h
    have hm : ¬ H.missing file :=
      fun hm => H.missing_not_load_fails file _ hm h
    rw [hr]
    simp [RET_VAL.toInt, h, hl, hm]
  · have hm : ¬ H.missing file :=
      fun hm => H.missing_not_loads file _ kf hm h
    have hf : ¬ H.load_fails file (app_run_flags value remove) :=
      fun hf => H.load_fails_not_loads file _ kf hf h
    have hc := app_handle_keyfile_cmdline L quiet kf section_ key value remove
    have hg := app_handle_keyfile_ret_range L quiet kf section_ key value
      remove
    rw [app_run_ret_of_loads L H quiet file section_ key value remove kf h]
    simp only [H.exists_loads_iff file _ kf h, hm, hf]
    generalize (app_handle_keyfile L quiet kf section_ key value
      remove).keyfile = kf1 at *
    generalize (app_handle_keyfile L quiet kf section_ key value
      remove).ret = r at *
    by_cases hstd : file = STANDARD_INPUT
    · cases r <;> simp_all [RET_VAL.toInt]
    · cases hs : H.file_set_contents file (H.to_data kf1) <;>
        cases r <;> simp_all [RET_VAL.toInt]

/-- C7, at the file `ro.conf`, which loads but cannot be replaced: a set
returns `RET_FILE_UPDATE_ERROR`. -/
theorem app_run_exit_code_witness :
    (app_run specKeyFile (tableHost tableAB) false "ro.conf" (some "a")
        (some "x") (some "2") false).ret = RET_FILE_UPDATE_ERROR :=
  (app_run_exit_code specKeyFile (tableHost tableAB) false "ro.conf"
    (some "a") (some "x") (some "2") false).2.2.2.2.2.1.mpr
    ⟨docAB, Or.inr ⟨by decide, rfl, rfl⟩, by decide, by decide,
      KeyFileError.io, rfl⟩

end ConfTool
